import Mathlib

/-!
# pocketpy binding demo: `test2.cpp` and `main.cpp`

A shallow embedding of the two translation units and the properties of the
native `Point` class, its bound operations, the `testf` / `nonempty` entries
and the console reader.

The number type `double` is a type parameter `α`: every definition uses only
the operations the source applies to it. The results on the operators hold for
any interpretation of `+`; the result on `ptnonull` is stated over exact
arithmetic, a linearly ordered ring with a `sqrt` positive on positive numbers.
-/

set_option autoImplicit false

namespace Pocketpy

/-! ## Native level: `struct Point` (test2.cpp) -/

/-- What the C++ abstract machine leaves undefined; the model makes it a result. -/
inductive Fault where
  | nullDeref
  | badAddress
  | outOfRange
  deriving DecidableEq, Repr

/-- Address of a native object. -/
abbrev Addr := Nat

/-- The struct `Point` of test2.cpp line 6: two fields `x`, `y`. -/
structure Point (α : Type) where
  x : α
  y : α
  deriving DecidableEq, Repr

/-- Stream formatting the source calls but does not define. -/
structure Host (α : Type) where
  /-- Formatting of `ostream << double`. -/
  fmtNum : α → String
  /-- Formatting of `ostream << (void*)`. -/
  fmtPtr : Addr → String

/-- Native state: the `Point` objects alive, by address, and what was written to `std::cout`. -/
structure Native (α : Type) where
  heap : List (Point α)
  cout : List String

section NativeOps

variable {α : Type}

/-- Read the object a pointer or reference designates. -/
def Native.load (w : Native α) (a : Addr) : Except Fault (Point α) :=
  match w.heap[a]? with
  | some p => .ok p
  | none => .error .badAddress

/-- Overwrite the object a pointer or reference designates. -/
def Native.store (w : Native α) (a : Addr) (p : Point α) : Except Fault (Native α) :=
  if a < w.heap.length then .ok { w with heap := w.heap.set a p } else .error .badAddress

/-- Append text to `std::cout`. -/
def Native.emit (w : Native α) (s : String) : Native α :=
  { w with cout := w.cout ++ [s] }

/-- Text of a `bool` under `std::boolalpha`. -/
def boolalpha (b : Bool) : String := if b then "true" else "false"

/-- Constructor `Point (double a=0, double b=0): x(a), y(b) {}` (line 10), both arguments given. -/
def Point.init (a b : α) : Point α := { x := a, y := b }

/-- Method `length` (line 11): `sqrt(x*x+y*y)`; `sqrt` is the function of the C maths
library. -/
def Point.length [Add α] [Mul α] (sqrt : α → α) (p : Point α) : α :=
  sqrt (p.x * p.x + p.y * p.y)

/-- Method `repr` (lines 12-16). -/
def Point.repr (H : Host α) (p : Point α) : String :=
  "Point(" ++ H.fmtNum p.x ++ ", " ++ H.fmtNum p.y ++ ")"

/-- The line both operators print first (lines 21 and 25). -/
def traceLine (H : Host α) (this other : Addr) : String :=
  "this=" ++ H.fmtPtr this ++ ", other=" ++ H.fmtPtr other ++ ", same="
    ++ boolalpha (this == other) ++ "\n"

/-- Method `operator+` (lines 20-23): prints, then returns `Point(x+p.x, y+p.y)` by value.
`this` and `other` are the addresses of the receiver and of the referenced argument. -/
def Point.operator_plus [Add α] (H : Host α) (this other : Addr) (w : Native α) :
    Except Fault (Point α × Native α) := do
  let w := w.emit (traceLine H this other)
  let t ← w.load this
  let p ← w.load other
  return (Point.init (t.x + p.x) (t.y + p.y), w)

/-- Method `operator+=` (lines 24-28): prints, `x+=p.x; y+=p.y;`, returns `*this`.
Each statement reads `other` again from the current state, so a receiver that
aliases the argument is read after the first statement has written. -/
def Point.operator_plus_eq [Add α] (H : Host α) (this other : Addr) (w : Native α) :
    Except Fault (Addr × Native α) := do
  let w := w.emit (traceLine H this other)
  -- x+=p.x;
  let t ← w.load this
  let p ← w.load other
  let w ← w.store this { t with x := t.x + p.x }
  -- y+=p.y;
  let t ← w.load this
  let p ← w.load other
  let w ← w.store this { t with y := t.y + p.y }
  return (this, w)

end NativeOps

/-! ## Free functions of test2.cpp -/

section FreeFunctions

variable {α : Type}

/-- Dereference a pointer: `none` is the null pointer. -/
def Native.deref (w : Native α) : Option Addr → Except Fault (Point α)
  | none => .error .nullDeref
  | some a => w.load a

/-- Function `ptnonull` (lines 46-50). The pointer `p` is `none` for `nullptr`.
`p && p->length()>0` evaluates its right operand only when `p` is non-null. -/
def ptnonull [Add α] [Mul α] [Zero α] [LT α] [DecidableRel (fun a b : α => a < b)]
    (H : Host α) (sqrt : α → α) (p : Option Addr) (w : Native α) :
    Except Fault (Bool × Native α) := do
  -- if (p) std::cout << "Passed " << p->repr() << std::endl;
  -- else std::cout << "Passed nullptr" << std::endl;
  let w ←
    if p.isSome then do
      let pt ← w.deref p
      pure (w.emit ("Passed " ++ pt.repr H ++ "\n"))
    else
      pure (w.emit ("Passed nullptr" ++ "\n"))
  -- return p && p->length()>0;
  if p.isSome then do
    let pt ← w.deref p
    return (decide (0 < pt.length sqrt), w)
  else
    return (false, w)

end FreeFunctions

/-! ## Dynamic level: values, marshalling, dispatch, registry

`pocketpy.h` and `pocketpy/binding2.h` are not among the sources; what the
translation units use of them is modelled from the specification. -/

section Dynamic

variable {α : Type}

/-- Modelled from the spec: DynamicValue (section 3), a boxed runtime value tagged with
its dynamic type; a native object wraps a native pointer plus its registry id. The type
`PyObject*` of pocketpy.h is missing from the sources. -/
inductive DynamicValue (α : Type) where
  | none
  | int (i : Int)
  | float (f : α)
  | str (s : String)
  | native (classId : Nat) (ptr : Addr)
  | other (tag : Nat)
  deriving DecidableEq

/-- Modelled from the spec: the error kinds of the binding layer (section 7), which
binding2.h would raise, and native faults passing through it. -/
inductive PyError where
  | RegistrationError
  | ArgumentTypeError
  | fault (f : Fault)
  deriving DecidableEq

/-- Conversions inside the numeric family, which the specification names but does not define. -/
structure NumConv (α : Type) where
  /-- Widening of a dynamic integer to `double`. -/
  ofInt : Int → α
  /-- Narrowing of a dynamic float to `int`. -/
  toInt : α → Int
  /-- Narrowing of a dynamic integer to `int`. -/
  narrow : Int → Int

/-- Modelled from the spec: `try_py_cast` to `int` (binding2.h is missing), ArgMarshaller
rule (2) of section 4.3: a numeric target matches the dynamic numeric family and nothing
else; a no-match is a sentinel, never an error. -/
def try_py_cast_int (N : NumConv α) : DynamicValue α → Option Int
  | .int i => some (N.narrow i)
  | .float f => some (N.toInt f)
  | _ => none

/-- Modelled from the spec: `try_py_cast` to `double` (binding2.h is missing), ArgMarshaller
rule (2) of section 4.3. -/
def try_py_cast_double (N : NumConv α) : DynamicValue α → Option α
  | .int i => some (N.ofInt i)
  | .float f => some f
  | _ => none

/-- Modelled from the spec: `try_py_cast` to `std::string` (binding2.h is missing),
ArgMarshaller rule (3) of section 4.3: interpreter type-tag match for text targets. -/
def try_py_cast_string : DynamicValue α → Option String
  | .str s => some s
  | _ => none

/-- Modelled from the spec: `try_py_cast` to `Point*` (binding2.h is missing), ArgMarshaller
rule (1) of section 4.3: exact registered-class id match; the result is the wrapped
native pointer. `cls` is the registry id of `Point`. -/
def try_py_cast_ptr (cls : Nat) : DynamicValue α → Option (Option Addr)
  | .native c p => if c = cls then some (some p) else none
  | _ => none

/-- Modelled from the spec: `py_var` on a `std::string` (pocketpy.h is missing); section 4.4:
a returned primitive becomes the corresponding dynamic primitive value. -/
def py_var (s : String) : DynamicValue α := .str s

/-- The lambda bound as `testf(o=None)` in `regpt` (lines 58-63). The three overloads of
`try_py_cast` it calls are parameters, in the order the source probes them:
`int`, `std::string`, `Point*`. -/
def testf (H : Host α)
    (castInt : DynamicValue α → Option Int)
    (castString : DynamicValue α → Option String)
    (castPoint : DynamicValue α → Option (Option Addr))
    (w : Native α) (args : List (DynamicValue α)) : Except Fault (DynamicValue α) := do
  let a0 ← match args[0]? with
    | some v => pure v
    | none => throw Fault.outOfRange
  match castInt a0 with
  | some i => return py_var ("Int: " ++ toString i)
  | none =>
    match castString a0 with
    | some s => return py_var ("String: " ++ s)
    | none =>
      match castPoint a0 with
      | some p => do
        let pt ← w.deref p
        return py_var (pt.repr H)
      | none => return py_var "Something else"

/-- Modelled from the spec: one entry of a Signature (section 3): parameter name and
optional default literal. -/
structure Param (α : Type) where
  name : String
  dflt : Option (DynamicValue α)

/-- Modelled from the spec: Signature (section 3), the ordered parameter list a signature
string denotes. -/
abbrev Signature (α : Type) := List (Param α)

/-- Modelled from the spec: Dispatcher (section 4.4), "for any omitted trailing parameters,
substitutes the signature's declared default literal". No result when a parameter without
default is omitted or more arguments than parameters are supplied. -/
def fillDefaults : Signature α → List (DynamicValue α) → Option (List (DynamicValue α))
  | [], [] => some []
  | [], _ :: _ => none
  | p :: ps, [] =>
    match p.dflt with
    | some d => (fillDefaults ps []).map (fun r => d :: r)
    | none => none
  | _ :: ps, a :: as => (fillDefaults ps as).map (fun r => a :: r)

/-- Modelled from the spec: Dispatcher (section 4.4), invocation of a callable with a
declared signature: the callee receives the argument list after default substitution. -/
def invoke {R : Type} (sig : Signature α) (callee : List (DynamicValue α) → R)
    (args : List (DynamicValue α)) : Option R :=
  (fillDefaults sig args).map callee

/-- Signature of the script function `def test(a, b, c = " ")` (main.cpp line 76). -/
def testSignature : Signature α :=
  [⟨"a", Option.none⟩, ⟨"b", Option.none⟩, ⟨"c", some (.str " ")⟩]

/-- Signature string `"__new__ (cls, x=0, y=0)"` (test2.cpp line 33). -/
def newSignature : Signature α :=
  [⟨"cls", Option.none⟩, ⟨"x", some (.int 0)⟩, ⟨"y", some (.int 0)⟩]

/-- Signature string `"testf(o=None)"` (test2.cpp line 58). -/
def testfSignature : Signature α := [⟨"o", some .none⟩]

/-- Modelled from the spec: `bindConstructor<Point, double, double>` (binding2.h is missing),
section 4.2: marshals the constructor arguments, constructs the native object inside a
fresh heap wrapper. The object built is `Point(a, b)` of the source. -/
def bound_new (N : NumConv α) (cls : Nat) (args : List (DynamicValue α)) (w : Native α) :
    Except PyError (DynamicValue α × Native α) :=
  match fillDefaults newSignature args with
  | some [_, ax, ay] =>
    match try_py_cast_double N ax, try_py_cast_double N ay with
    | some a, some b =>
      .ok (.native cls w.heap.length, { w with heap := w.heap ++ [Point.init a b] })
    | _, _ => .error .ArgumentTypeError
  | _ => .error .ArgumentTypeError

/-- Modelled from the spec: getter of `bind("x", &Point::x)` (binding2.h is missing),
section 4.2: reads the native field through the stored native pointer. -/
def bound_get_x (cls : Nat) (self : DynamicValue α) (w : Native α) :
    Except PyError (DynamicValue α) :=
  match try_py_cast_ptr cls self with
  | some p =>
    match w.deref p with
    | .ok pt => .ok (.float pt.x)
    | .error f => .error (.fault f)
  | none => .error .ArgumentTypeError

/-- Modelled from the spec: getter of `bind("y", &Point::y)` (binding2.h is missing),
section 4.2. -/
def bound_get_y (cls : Nat) (self : DynamicValue α) (w : Native α) :
    Except PyError (DynamicValue α) :=
  match try_py_cast_ptr cls self with
  | some p =>
    match w.deref p with
    | .ok pt => .ok (.float pt.y)
    | .error f => .error (.fault f)
  | none => .error .ArgumentTypeError

/-- Modelled from the spec: the member bound by `bind("append(self,other)", &operator+=)`
(binding2.h is missing), section 4.4: both arguments are marshalled to the native objects
they wrap, `operator+=` of the source runs, and the returned reference to `self` is boxed
as the existing wrapper of that object, nothing being allocated. -/
def bound_append [Add α] (H : Host α) (cls : Nat) (args : List (DynamicValue α))
    (w : Native α) : Except PyError (DynamicValue α × Native α) :=
  match args with
  | [self, other] =>
    match try_py_cast_ptr cls self, try_py_cast_ptr cls other with
    | some (some a), some (some b) =>
      match Point.operator_plus_eq H a b w with
      | .ok (r, w1) => .ok (.native cls r, w1)
      | .error f => .error (.fault f)
    | _, _ => .error .ArgumentTypeError
  | _ => .error .ArgumentTypeError

end Dynamic

/-! ## Class registry and `regpt` -/

section Registry

/-- Modelled from the spec: kinds of MemberBinding (section 3). -/
inductive MemberKind where
  | field
  | method
  | operator
  | constructor
  deriving DecidableEq

/-- Modelled from the spec: MemberBinding (section 3), kind and name or signature string;
the native pointer is the embedded function of the same name. -/
structure MemberBinding where
  kind : MemberKind
  signature : String
  deriving DecidableEq

/-- Modelled from the spec: NativeClassDescriptor (section 3): name, owning module,
ordered member bindings, unique registry id. -/
structure NativeClassDescriptor where
  name : String
  owner : String
  members : List MemberBinding
  id : Nat
  deriving DecidableEq

/-- Modelled from the spec: TypeRegistry (sections 2 and 4.1), the per-VM table of class
descriptors. There is no operation that removes a descriptor; `nextId` is the id the
next registration receives. -/
structure TypeRegistry where
  classes : List NativeClassDescriptor
  nextId : Nat

/-- Registry of a VM that has registered nothing yet. -/
def TypeRegistry.empty : TypeRegistry := { classes := [], nextId := 0 }

/-- Modelled from the spec: `lookup` of section 4.1, by name inside one module. -/
def TypeRegistry.lookup (r : TypeRegistry) (modName name : String) :
    Option NativeClassDescriptor :=
  r.classes.find? (fun d => decide (d.owner = modName ∧ d.name = name))

/-- Modelled from the spec: `register_class` of section 4.1 (the expansion of `PY_REG` in
binding2.h is missing): "fails with RegistrationError if name already exists in that
module/VM pair"; otherwise the descriptor receives an id assigned once. -/
def TypeRegistry.register_class (r : TypeRegistry) (modName name : String)
    (members : List MemberBinding) : Except PyError (Nat × TypeRegistry) :=
  match r.lookup modName name with
  | some _ => .error .RegistrationError
  | none =>
    .ok (r.nextId,
      { classes := r.classes ++ [{ name := name, owner := modName, members := members,
                                    id := r.nextId }],
        nextId := r.nextId + 1 })

/-- One registration request of a VM's lifetime: module, class name, members. -/
abbrev Request := String × String × List MemberBinding

/-- One request applied to a registry; a failed registration leaves it as it was. -/
def TypeRegistry.step (r : TypeRegistry) (q : Request) : TypeRegistry :=
  match r.register_class q.1 q.2.1 q.2.2 with
  | .ok (_, r1) => r1
  | .error _ => r

/-- The registry of a VM after a history of registration requests. -/
def TypeRegistry.replay (qs : List Request) : TypeRegistry :=
  qs.foldl TypeRegistry.step TypeRegistry.empty

/-- The binder chain in the body of `PY_REG(Point, builtins, Point)` (test2.cpp lines 30-42). -/
def pointMembers : List MemberBinding :=
  [ ⟨.field, "half"⟩,
    ⟨.constructor, "__new__ (cls, x=0, y=0)"⟩,
    ⟨.field, "x"⟩,
    ⟨.field, "y"⟩,
    ⟨.method, "__len__(self)"⟩,
    ⟨.method, "__repr__(self)"⟩,
    ⟨.operator, "__add__(self,other)"⟩,
    ⟨.method, "append(self,other)"⟩,
    ⟨.method, "print(self,s)"⟩ ]

/-- The call `Point::register_class(vm, mod)` that `PY_REG(Point, builtins, Point)` declares. -/
def Point.register_class (r : TypeRegistry) (modName : String) :
    Except PyError (Nat × TypeRegistry) :=
  r.register_class modName "Point" pointMembers

/-- What `regpt` changes of a VM: the class registry and the names bound in `_main`. -/
structure VM where
  registry : TypeRegistry
  mainBindings : List String

/-- Function `regpt` (test2.cpp lines 52-64): registers `Point` in `builtins`, then binds
`nonempty` and `testf` in `_main`. -/
def regpt (vm : VM) : Except PyError VM := do
  let (_, reg) ← Point.register_class vm.registry "builtins"
  return { registry := reg,
           mainBindings := vm.mainBindings ++ ["nonempty(p=None)", "testf(o=None)"] }

end Registry

/-! ## Console reader and `input` (main.cpp) -/

section Console

variable {α : Type}

/-- State of `std::cin`: unread characters and the three state bits. -/
structure IStream where
  buf : List Char
  eofbit : Bool
  failbit : Bool
  badbit : Bool
  deriving DecidableEq

/-- Member `good()`: no state bit is set. -/
def IStream.good (s : IStream) : Bool := !(s.eofbit || s.failbit || s.badbit)

/-- Member `fail()`, which `operator!` returns: `failbit` or `badbit` is set. -/
def IStream.fail (s : IStream) : Bool := s.failbit || s.badbit

/-- Extraction loop of `std::getline`: characters stored, characters left, and whether
the delimiter was met (and extracted) before the input ended. -/
def extractLine : List Char → List Char × List Char × Bool
  | [] => ([], [], false)
  | c :: cs =>
    if c = Char.ofNat 10 then ([], cs, true)
    else
      let r := extractLine cs
      (c :: r.1, r.2.1, r.2.2)

/-- Library function `std::getline(std::istream&, std::string&)` as the C++ standard
defines it: a stream that is not good gets `failbit` and the string is left alone;
otherwise the string is erased and filled up to the delimiter, `eofbit` is set when the
input ends first, and `failbit` when no character at all was extracted. -/
def std_getline (s : IStream) (str : String) : IStream × String :=
  if s.good then
    let r := extractLine s.buf
    ({ buf := r.2.1, eofbit := !r.2.2, failbit := !r.2.2 && r.1.isEmpty, badbit := false },
      String.mk r.1)
  else
    ({ s with failbit := true }, str)

/-- Result of `pkpy_platform_getline`: returned text, stream after the call, and the
`bool` the pointer designates (`none` for a null pointer). -/
structure GetlineResult where
  output : String
  cin : IStream
  eof : Option Bool
  deriving DecidableEq

/-- Function `pkpy_platform_getline` (main.cpp lines 36-42, the non-Windows version).
`eof` is `none` for a null pointer and `some b` for a pointer to a `bool` holding `b`. -/
def pkpy_platform_getline (cin : IStream) (eof : Option Bool) : GetlineResult :=
  let output := ""
  let r := std_getline cin output
  -- if(!std::getline(std::cin, output)){ if(eof) *eof = true; }
  let eof1 := if r.1.fail then (if eof.isSome then some true else eof) else eof
  { output := r.2, cin := r.1, eof := eof1 }

/-- Modelled from the spec: the interpreter handle `pkpy_vm` (pocketpy_c.h is missing),
section 6: an explicit value stack, top first, and the interpreter's error channel. -/
structure pkpy_vm (α : Type) where
  stack : List (DynamicValue α)
  error : Bool

/-- Modelled from the spec: the stack slot a C API index designates (pocketpy_c.h is
missing); the source only uses `-1`, the top of the stack. Negative indices count from
the top. -/
def pkpy_vm.item (vm : pkpy_vm α) (i : Int) : Option (DynamicValue α) :=
  if i < 0 then vm.stack[(-i - 1).toNat]? else vm.stack.reverse[i.toNat]?

/-- Modelled from the spec: `pkpy_is_none` (pocketpy_c.h is missing): the value at the index
is the "no value" sentinel. -/
def pkpy_is_none (vm : pkpy_vm α) (i : Int) : Bool :=
  match vm.item i with
  | some .none => true
  | _ => false

/-- Modelled from the spec: `pkpy_to_string` (pocketpy_c.h is missing): the text of the value
at the index when it is text; otherwise no result, and the failed cast is on the
interpreter's error channel (section 7). -/
def pkpy_to_string (vm : pkpy_vm α) (i : Int) : Option String × pkpy_vm α :=
  match vm.item i with
  | some (.str s) => (some s, vm)
  | _ => (Option.none, { vm with error := true })

/-- Modelled from the spec: `pkpy_push_string` (pocketpy_c.h is missing), section 6: pushes
one text value on the stack. -/
def pkpy_push_string (vm : pkpy_vm α) (s : String) : pkpy_vm α :=
  { vm with stack := .str s :: vm.stack }

/-- State `f_input` acts on: interpreter handle, `std::cin`, `std::cout`. -/
structure Proc (α : Type) where
  vm : pkpy_vm α
  cin : IStream
  cout : List String

/-- Modelled from the spec: `pkpy_string` (pocketpy_c.h is missing) applied to
`output.c_str()`: the text of a C string, which ends at the first NUL character. -/
def pkpy_string (s : String) : String :=
  String.mk (s.data.takeWhile (fun c => decide (c ≠ Char.ofNat 0)))

/-- Lines 53-56 of `f_input`: `bool eof;` is not initialised, its value `eof0` is arbitrary. -/
def f_input_read (eof0 : Bool) (st : Proc α) : Int × Proc α :=
  let r := pkpy_platform_getline st.cin (some eof0)
  (1, { st with vm := pkpy_push_string st.vm (pkpy_string r.output), cin := r.cin })

/-- Function `f_input` (main.cpp lines 46-57), bound as `input(prompt=None) -> str`. -/
def f_input (eof0 : Bool) (st : Proc α) : Int × Proc α :=
  if !pkpy_is_none st.vm (-1) then
    match pkpy_to_string st.vm (-1) with
    | (Option.none, vm1) => (0, { st with vm := vm1 })
    | (some prompt, vm1) =>
      f_input_read eof0 { st with vm := vm1, cout := st.cout ++ [prompt] }
  else
    f_input_read eof0 st

end Console

/-! ## Concrete instances used to run the definitions -/

/-- Formatting over the rationals, for running the definitions on concrete inputs. -/
def ratHost : Host ℚ := { fmtNum := fun q => toString q, fmtPtr := fun a => toString a }

/-- Formatting over the reals; the text does not depend on the number. -/
def realHost : Host ℝ := { fmtNum := fun _ => "real", fmtPtr := fun a => toString a }

/-- Numeric conversions over the rationals: the integer itself, the floor, no narrowing. -/
def ratConv : NumConv ℚ := { ofInt := fun i => (i : ℚ), toInt := fun q => ⌊q⌋, narrow := fun i => i }

/-! ## Properties of the native operators -/

section NativeProps

variable {α : Type}

theorem lt_length_of_getElem? {w : Native α} {a : Addr} {p : Point α}
    (h : w.heap[a]? = some p) : a < w.heap.length := by
  rcases List.getElem?_eq_some.1 h with ⟨hlt, _⟩
  exact hlt

/-- Closed form of `operator+=`: the receiver ends as the field-wise sum of the
two objects as they were before the call, whether or not they alias. -/
theorem operator_plus_eq_closed [Add α] (H : Host α) (w : Native α) (this other : Addr)
    (t p : Point α) (ht : w.heap[this]? = some t) (hp : w.heap[other]? = some p) :
    Point.operator_plus_eq H this other w
      = .ok (this, { heap := w.heap.set this ⟨t.x + p.x, t.y + p.y⟩,
                     cout := w.cout ++ [traceLine H this other] }) := by
  have hlt : this < w.heap.length := lt_length_of_getElem? ht
  by_cases hso : other = this
  · subst hso
    have hpt : p = t := by
      rw [ht] at hp
      exact (Option.some.inj hp).symm
    subst hpt
    simp [Point.operator_plus_eq, Native.emit, Native.load, Native.store, ht, hlt, bind,
      Except.bind, pure, Except.pure]
  · have hne : this ≠ other := fun h => hso h.symm
    simp [Point.operator_plus_eq, Native.emit, Native.load, Native.store, ht, hp, hlt, bind,
      Except.bind, pure, Except.pure, List.getElem?_set, hne]

/-- C1: `operator+=` (bound as `append(self,other)`) called with one object `p = (x, y)` as
both receiver and argument succeeds, returns `p`, and leaves `p` with fields
`(x + x, y + y)`, each field being the sum of the two values the field had before the
call; no other object changes. -/
theorem operator_plus_eq_self_alias [Add α] (H : Host α) (w : Native α) (p : Addr) (x y : α)
    (h : w.heap[p]? = some ⟨x, y⟩) :
    ∃ w1, Point.operator_plus_eq H p p w = .ok (p, w1)
      ∧ w1.heap[p]? = some ⟨x + x, y + y⟩
      ∧ ∀ q, q ≠ p → w1.heap[q]? = w.heap[q]? := by
  have hlt : p < w.heap.length := lt_length_of_getElem? h
  refine ⟨_, operator_plus_eq_closed H w p p ⟨x, y⟩ ⟨x, y⟩ h h, ?_, ?_⟩
  · simp [List.getElem?_set, hlt]
  · intro q hq
    simp [List.getElem?_set, Ne.symm hq]

/-- The point `(1, 1)` appended to itself ends as `(2, 2)`. -/
theorem operator_plus_eq_self_alias_witness :
    ∃ w1, Point.operator_plus_eq ratHost 0 0 { heap := [⟨1, 1⟩], cout := [] } = .ok (0, w1)
      ∧ w1.heap[0]? = some ⟨2, 2⟩
      ∧ ∀ q, q ≠ 0 → w1.heap[q]? = ([⟨1, 1⟩] : List (Point ℚ))[q]? := by
  obtain ⟨w1, h1, h2, h3⟩ :=
    operator_plus_eq_self_alias ratHost { heap := [⟨1, 1⟩], cout := [] } 0 1 1 rfl
  refine ⟨w1, h1, ?_, h3⟩
  rw [h2]
  norm_num

/-- C2: `operator+` (bound as `__add__(self,other)`) on objects `a` and `b` succeeds and
returns by value the point `(a.x + b.x, a.y + b.y)`; the objects alive, `a` and `b` among
them, are exactly as before. -/
theorem operator_plus_frame [Add α] (H : Host α) (w : Native α) (a b : Addr)
    (pa pb : Point α) (ha : w.heap[a]? = some pa) (hb : w.heap[b]? = some pb) :
    ∃ w1, Point.operator_plus H a b w = .ok (⟨pa.x + pb.x, pa.y + pb.y⟩, w1)
      ∧ w1.heap = w.heap
      ∧ w1.heap[a]? = some pa
      ∧ w1.heap[b]? = some pb := by
  refine ⟨w.emit (traceLine H a b), ?_, rfl, ha, hb⟩
  simp [Point.operator_plus, Native.emit, Native.load, ha, hb, bind, Except.bind, pure,
    Except.pure, Point.init]

/-- For `a = (1, 2)` and `b = (2, 3)` the sum is `(3, 5)` and both operands stay. -/
theorem operator_plus_frame_witness :
    ∃ w1, Point.operator_plus ratHost 0 1 { heap := [⟨1, 2⟩, ⟨2, 3⟩], cout := [] }
        = .ok (⟨3, 5⟩, w1)
      ∧ w1.heap = [⟨1, 2⟩, ⟨2, 3⟩]
      ∧ w1.heap[0]? = some ⟨1, 2⟩
      ∧ w1.heap[1]? = some ⟨2, 3⟩ := by
  obtain ⟨w1, h1, h2, h3, h4⟩ :=
    operator_plus_frame ratHost { heap := [⟨1, 2⟩, ⟨2, 3⟩], cout := [] } 0 1 ⟨1, 2⟩ ⟨2, 3⟩
      rfl rfl
  refine ⟨w1, ?_, h2, h3, h4⟩
  rw [h1]
  norm_num

/-- C3: `a += b`, through the bound member `append(self,other)`, succeeds, mutates `a` in
place to `(a.x + b.x, a.y + b.y)`, leaves `b` unchanged when `b` is another object, returns
the handle of `a` itself (the native operator returns the address of its receiver), and
allocates nothing: the heap keeps its size and every other object. -/
theorem append_in_place [Add α] (H : Host α) (cls : Nat) (w : Native α) (a b : Addr)
    (pa pb : Point α) (ha : w.heap[a]? = some pa) (hb : w.heap[b]? = some pb) :
    ∃ w1, Point.operator_plus_eq H a b w = .ok (a, w1)
      ∧ bound_append H cls [.native cls a, .native cls b] w = .ok (.native cls a, w1)
      ∧ w1.heap[a]? = some ⟨pa.x + pb.x, pa.y + pb.y⟩
      ∧ (b ≠ a → w1.heap[b]? = some pb)
      ∧ w1.heap.length = w.heap.length
      ∧ ∀ q, q ≠ a → w1.heap[q]? = w.heap[q]? := by
  have hlt : a < w.heap.length := lt_length_of_getElem? ha
  have hc := operator_plus_eq_closed H w a b pa pb ha hb
  refine ⟨_, hc, ?_, ?_, ?_, ?_, ?_⟩
  · simp [bound_append, try_py_cast_ptr, hc]
  · simp [List.getElem?_set, hlt]
  · intro hne
    simp [List.getElem?_set, Ne.symm hne, hb]
  · simp
  · intro q hq
    simp [List.getElem?_set, Ne.symm hq]

/-- For `a = (1, 2)` and `b = (2, 3)`, `a` becomes `(3, 5)` and the result is `a`. -/
theorem append_in_place_witness :
    ∃ w1, Point.operator_plus_eq ratHost 0 1 { heap := [⟨1, 2⟩, ⟨2, 3⟩], cout := [] }
        = .ok (0, w1)
      ∧ bound_append ratHost 7 [.native 7 0, .native 7 1]
          { heap := [⟨1, 2⟩, ⟨2, 3⟩], cout := [] } = .ok (.native 7 0, w1)
      ∧ w1.heap[0]? = some ⟨3, 5⟩
      ∧ ((1 : Addr) ≠ 0 → w1.heap[1]? = some ⟨2, 3⟩)
      ∧ w1.heap.length = 2
      ∧ ∀ q, q ≠ 0 → w1.heap[q]? = ([⟨1, 2⟩, ⟨2, 3⟩] : List (Point ℚ))[q]? := by
  obtain ⟨w1, h1, h2, h3, h4, h5, h6⟩ :=
    append_in_place ratHost 7 { heap := [⟨1, 2⟩, ⟨2, 3⟩], cout := [] } 0 1 ⟨1, 2⟩ ⟨2, 3⟩
      rfl rfl
  refine ⟨w1, h1, h2, ?_, h4, h5, h6⟩
  rw [h3]
  norm_num

end NativeProps

/-! ## Construction, dispatch and defaults -/

section DynamicProps

variable {α : Type}

/-- C4: constructing a `Point` through the registered constructor
`"__new__ (cls, x=0, y=0)"` with two numeric arguments whose `double` values are `x` and
`y` succeeds, and reading the bound fields `"x"` and `"y"` of the new object returns
exactly `x` and `y`. -/
theorem construct_roundtrip (N : NumConv α) (cls : Nat) (w : Native α)
    (c ax ay : DynamicValue α) (x y : α)
    (hx : try_py_cast_double N ax = some x) (hy : try_py_cast_double N ay = some y) :
    ∃ h w1, bound_new N cls [c, ax, ay] w = .ok (h, w1)
      ∧ bound_get_x cls h w1 = .ok (.float x)
      ∧ bound_get_y cls h w1 = .ok (.float y) := by
  refine ⟨.native cls w.heap.length, { w with heap := w.heap ++ [Point.init x y] }, ?_, ?_, ?_⟩
  · simp [bound_new, fillDefaults, newSignature, hx, hy]
  · simp [bound_get_x, try_py_cast_ptr, Native.deref, Native.load, Point.init]
  · simp [bound_get_y, try_py_cast_ptr, Native.deref, Native.load, Point.init]

/-- Constructing with `(3, 4)` and reading back gives `(3, 4)`. -/
theorem construct_roundtrip_witness :
    ∃ h w1, bound_new ratConv 7 [.other 0, .int 3, .int 4] { heap := [], cout := [] }
        = .ok (h, w1)
      ∧ bound_get_x 7 h w1 = .ok (.float 3)
      ∧ bound_get_y 7 h w1 = .ok (.float 4) :=
  construct_roundtrip ratConv 7 { heap := [], cout := [] } (.other 0) (.int 3) (.int 4) 3 4
    (by simp [try_py_cast_double, ratConv]) (by simp [try_py_cast_double, ratConv])

/-- C5: on every text value `s`, also one that spells a number, the `int` probe reports
no match, the text probe succeeds, and `testf` returns `"String: "` followed by `s`
whatever the `Point*` probe would do: that probe is not consulted. -/
theorem testf_text (H : Host α) (N : NumConv α)
    (castPoint : DynamicValue α → Option (Option Addr)) (w : Native α) (s : String) :
    try_py_cast_int N (DynamicValue.str s : DynamicValue α) = none
      ∧ try_py_cast_string (DynamicValue.str s : DynamicValue α) = some s
      ∧ testf H (try_py_cast_int N) try_py_cast_string castPoint w [.str s]
          = .ok (.str ("String: " ++ s))
      ∧ testf H (try_py_cast_int N) try_py_cast_string castPoint w [.str "42"]
          = .ok (.str ("String: " ++ "42")) := by
  refine ⟨rfl, rfl, ?_, ?_⟩ <;>
    simp [testf, try_py_cast_int, try_py_cast_string, py_var, bind, Except.bind, pure,
      Except.pure]

/-- C6: on a value that none of the three probes matches, `testf` returns the text
`"Something else"` and no error; under the marshalling rules this covers `None`, also as
the default filled in when `testf` is called with no argument. -/
theorem testf_fallthrough (H : Host α) (w : Native α) :
    (∀ (castInt : DynamicValue α → Option Int) (castString : DynamicValue α → Option String)
        (castPoint : DynamicValue α → Option (Option Addr)) (v : DynamicValue α),
        castInt v = none → castString v = none → castPoint v = none →
        testf H castInt castString castPoint w [v] = .ok (.str "Something else"))
      ∧ (∀ (N : NumConv α) (cls : Nat),
          testf H (try_py_cast_int N) try_py_cast_string (try_py_cast_ptr cls) w [.none]
            = .ok (.str "Something else"))
      ∧ (∀ (N : NumConv α) (cls : Nat),
          invoke testfSignature
              (testf H (try_py_cast_int N) try_py_cast_string (try_py_cast_ptr cls) w) []
            = some (.ok (.str "Something else"))) := by
  have key : ∀ (castInt : DynamicValue α → Option Int)
      (castString : DynamicValue α → Option String)
      (castPoint : DynamicValue α → Option (Option Addr)) (v : DynamicValue α),
      castInt v = none → castString v = none → castPoint v = none →
      testf H castInt castString castPoint w [v] = .ok (.str "Something else") := by
    intro castInt castString castPoint v hi hs hp
    simp [testf, hi, hs, hp, py_var, bind, Except.bind, pure, Except.pure]
  refine ⟨key, ?_, ?_⟩
  · intro N cls
    exact key _ _ _ _ rfl rfl rfl
  · intro N cls
    simp only [invoke, fillDefaults, testfSignature, Option.map]
    exact congrArg some (key _ _ _ _ rfl rfl rfl)

/-- The `Point*` branch of `testf` dereferences the pointer without a null test: a probe
that matched with a null pointer would fault. The modelled probe never yields one. -/
theorem testf_null_pointer_probe (H : Host α) (w : Native α) (v : DynamicValue α)
    (castInt : DynamicValue α → Option Int) (castString : DynamicValue α → Option String)
    (hi : castInt v = none) (hs : castString v = none) :
    testf H castInt castString (fun _ => some none) w [v] = .error .nullDeref := by
  simp [testf, hi, hs, Native.deref, bind, Except.bind, pure, Except.pure]

/-- A value of a foreign type tag falls through to `"Something else"`. -/
theorem testf_fallthrough_witness :
    testf ratHost (try_py_cast_int ratConv) try_py_cast_string (try_py_cast_ptr 7)
        { heap := [], cout := [] } [.other 3] = .ok (.str "Something else") :=
  (testf_fallthrough ratHost { heap := [], cout := [] }).1 _ _ _ (.other 3) rfl rfl rfl

/-- Default substitution does not distinguish an omitted trailing argument from the
default literal written out. -/
theorem fillDefaults_append_default (sig : Signature α) (args : List (DynamicValue α))
    (p : Param α) (d : DynamicValue α)
    (hp : sig[args.length]? = some p) (hd : p.dflt = some d) :
    fillDefaults sig args = fillDefaults sig (args ++ [d]) := by
  induction sig generalizing args with
  | nil => simp at hp
  | cons q qs ih =>
    cases args with
    | nil =>
      simp at hp
      subst hp
      simp [fillDefaults, hd]
    | cons a as =>
      simp at hp
      simp [fillDefaults, ih as hp]

/-- C7: a callable declared with a default gives the same result with the trailing
argument omitted and with the default literal supplied: in general for the next omitted
parameter of any signature, for `test(a, b)` against `test(a, b, " ")`, and for `Point()`
and `Point(0)` against `Point(0, 0)`. -/
theorem default_parameters :
    (∀ (R : Type) (sig : Signature α) (callee : List (DynamicValue α) → R)
        (args : List (DynamicValue α)) (p : Param α) (d : DynamicValue α),
        sig[args.length]? = some p → p.dflt = some d →
        invoke sig callee args = invoke sig callee (args ++ [d]))
      ∧ (∀ (R : Type) (body : List (DynamicValue α) → R) (a b : DynamicValue α),
          invoke testSignature body [a, b] = invoke testSignature body [a, b, .str " "]
          ∧ invoke testSignature body [a, b] = some (body [a, b, .str " "]))
      ∧ (∀ (N : NumConv α) (cls : Nat) (c : DynamicValue α) (w : Native α),
          bound_new N cls [c] w = bound_new N cls [c, .int 0, .int 0] w
          ∧ bound_new N cls [c, .int 0] w = bound_new N cls [c, .int 0, .int 0] w
          ∧ bound_new N cls [c, .int 0, .int 0] w
              = .ok (.native cls w.heap.length,
                  { w with heap := w.heap ++ [Point.init (N.ofInt 0) (N.ofInt 0)] })) := by
  refine ⟨?_, ?_, ?_⟩
  · intro R sig callee args p d hp hd
    simp only [invoke, fillDefaults_append_default sig args p d hp hd]
  · intro R body a b
    simp [invoke, fillDefaults, testSignature]
  · intro N cls c w
    simp [bound_new, fillDefaults, newSignature, try_py_cast_double]

/-- The call `test(1, 2)` of the demo script equals `test(1, 2, " ")`. -/
theorem default_parameters_witness :
    invoke testSignature (fun l => l) [(.int 1 : DynamicValue ℚ), .int 2]
      = invoke testSignature (fun l => l) ([.int 1, .int 2] ++ [.str " "]) :=
  (default_parameters).1 _ testSignature (fun l => l) [.int 1, .int 2] ⟨"c", some (.str " ")⟩
    (.str " ") rfl rfl

end DynamicProps

/-! ## `ptnonull` -/

section PtnonullProps

variable {α : Type}

theorem sum_squares_pos_iff [LinearOrderedRing α] (x y : α) :
    0 < x * x + y * y ↔ ¬ (x = 0 ∧ y = 0) := by
  have hnn : 0 ≤ x * x + y * y := add_nonneg (mul_self_nonneg x) (mul_self_nonneg y)
  rw [← mul_self_add_mul_self_eq_zero]
  constructor
  · intro h h0
    rw [h0] at h
    exact lt_irrefl _ h
  · intro h
    exact lt_of_le_of_ne hnn (fun h0 => h h0.symm)

/-- C10: `ptnonull` (bound as `nonempty(p=None)`) never dereferences a null pointer; on
the null pointer it returns `false`; on a pointer to a point `(x, y)` it returns whether
`0 < sqrt(x*x + y*y)`, which over exact arithmetic, where `sqrt` is positive exactly on
positive numbers, holds exactly when `(x, y)` is not `(0, 0)`. -/
theorem ptnonull_spec [LinearOrderedRing α] (H : Host α) (sqrt : α → α)
    (hsqrt : ∀ v : α, 0 < sqrt v ↔ 0 < v) (w : Native α) :
    (∃ w1, ptnonull H sqrt none w = .ok (false, w1))
      ∧ (∀ p, ptnonull H sqrt p w ≠ .error .nullDeref)
      ∧ (∀ a pt, w.heap[a]? = some pt →
          (∃ w1, ptnonull H sqrt (some a) w = .ok (decide (0 < pt.length sqrt), w1))
          ∧ (0 < pt.length sqrt ↔ ¬ (pt.x = 0 ∧ pt.y = 0))) := by
  refine ⟨?_, ?_, ?_⟩
  · exact ⟨w.emit ("Passed nullptr" ++ "\n"),
      by simp [ptnonull, bind, Except.bind, pure, Except.pure]⟩
  · intro p
    cases p with
    | none => simp [ptnonull, bind, Except.bind, pure, Except.pure]
    | some a =>
      cases hload : w.heap[a]? with
      | none =>
        simp [ptnonull, Native.deref, Native.load, Native.emit, hload, bind, Except.bind,
          pure, Except.pure]
      | some pt =>
        simp [ptnonull, Native.deref, Native.load, Native.emit, hload, bind, Except.bind,
          pure, Except.pure]
  · intro a pt hload
    refine ⟨⟨w.emit ("Passed " ++ pt.repr H ++ "\n"), ?_⟩, ?_⟩
    · simp [ptnonull, Native.deref, Native.load, Native.emit, hload, bind, Except.bind,
        pure, Except.pure]
    · simp only [Point.length, hsqrt]
      exact sum_squares_pos_iff pt.x pt.y

/-- Over the reals with the real square root, the point `(3, 4)` is non-empty. -/
theorem ptnonull_spec_witness :
    (∃ w1, ptnonull realHost Real.sqrt (some 0) { heap := [⟨3, 4⟩], cout := [] }
        = .ok (decide (0 < Point.length Real.sqrt (⟨3, 4⟩ : Point ℝ)), w1))
      ∧ (0 < Point.length Real.sqrt (⟨3, 4⟩ : Point ℝ) ↔ ¬ ((3 : ℝ) = 0 ∧ (4 : ℝ) = 0)) :=
  (ptnonull_spec realHost Real.sqrt (fun _ => Real.sqrt_pos)
    { heap := [⟨3, 4⟩], cout := [] }).2.2 0 ⟨3, 4⟩ rfl

end PtnonullProps

/-! ## Class registration -/

section RegistryProps

/-- A successful registration is the one the definition builds. -/
theorem register_class_ok_iff (r : TypeRegistry) (m n : String) (ms : List MemberBinding)
    (id : Nat) (r1 : TypeRegistry) :
    r.register_class m n ms = .ok (id, r1) ↔
      r.lookup m n = none ∧ id = r.nextId ∧
      r1 = { classes := r.classes ++ [{ name := n, owner := m, members := ms, id := r.nextId }],
             nextId := r.nextId + 1 } := by
  unfold TypeRegistry.register_class
  cases hl : r.lookup m n with
  | none =>
    simp only [Except.ok.injEq, Prod.mk.injEq, true_and]
    constructor
    · rintro ⟨h1, h2⟩
      exact ⟨h1.symm, h2.symm⟩
    · rintro ⟨h1, h2⟩
      exact ⟨h1.symm, h2.symm⟩
  | some d => simp

/-- Registration of a name that is absent succeeds. -/
theorem register_class_of_lookup_none (r : TypeRegistry) (m n : String)
    (ms : List MemberBinding) (h : r.lookup m n = none) :
    r.register_class m n ms
      = .ok (r.nextId,
          { classes := r.classes ++ [{ name := n, owner := m, members := ms, id := r.nextId }],
            nextId := r.nextId + 1 }) := by
  simp [TypeRegistry.register_class, h]

/-- Registration of a name that is present fails. -/
theorem register_class_of_lookup_some (r : TypeRegistry) (m n : String)
    (ms : List MemberBinding) (d : NativeClassDescriptor) (h : r.lookup m n = some d) :
    r.register_class m n ms = .error .RegistrationError := by
  simp [TypeRegistry.register_class, h]

/-- Once a registration has succeeded the name is found. -/
theorem lookup_after_register (r r1 : TypeRegistry) (m n : String) (ms : List MemberBinding)
    (id : Nat) (h : r.register_class m n ms = .ok (id, r1)) :
    ∃ d, r1.lookup m n = some d := by
  obtain ⟨hl, _, rfl⟩ := (register_class_ok_iff r m n ms id r1).1 h
  unfold TypeRegistry.lookup at hl ⊢
  have hl1 : ∀ x ∈ r.classes, x.owner = m → ¬ x.name = n := by
    simpa [List.find?_eq_none] using hl
  cases hf : List.find? (fun d => decide (d.owner = m ∧ d.name = n))
      (r.classes ++ [{ name := n, owner := m, members := ms, id := r.nextId }]) with
  | some d => exact ⟨d, rfl⟩
  | none =>
    exfalso
    rw [List.find?_eq_none] at hf
    have := hf { name := n, owner := m, members := ms, id := r.nextId } (by simp)
    simp at this

/-- The registry invariant: every id handed out is below `nextId`, and no two descriptors
share an id. One request keeps it. -/
theorem step_invariant (r : TypeRegistry) (q : Request)
    (hlt : ∀ d ∈ r.classes, d.id < r.nextId)
    (hnd : (r.classes.map (fun d => d.id)).Nodup) :
    (∀ d ∈ (r.step q).classes, d.id < (r.step q).nextId)
      ∧ ((r.step q).classes.map (fun d => d.id)).Nodup := by
  unfold TypeRegistry.step TypeRegistry.register_class
  cases hl : r.lookup q.1 q.2.1 with
  | some d => exact ⟨hlt, hnd⟩
  | none =>
    constructor
    · intro d hd
      simp only [List.mem_append, List.mem_singleton] at hd
      rcases hd with hd | hd
      · exact Nat.lt_succ_of_lt (hlt d hd)
      · subst hd
        exact Nat.lt_succ_self _
    · simp only [List.map_append, List.map_cons, List.map_nil]
      rw [List.nodup_append]
      refine ⟨hnd, List.nodup_singleton _, ?_⟩
      intro a ha hb
      simp only [List.mem_singleton] at hb
      subst hb
      obtain ⟨d, hd, hid⟩ := List.mem_map.1 ha
      have := hlt d hd
      omega

/-- The invariant holds along every history of requests. -/
theorem foldl_step_invariant (qs : List Request) (r : TypeRegistry)
    (hlt : ∀ d ∈ r.classes, d.id < r.nextId)
    (hnd : (r.classes.map (fun d => d.id)).Nodup) :
    (∀ d ∈ (qs.foldl TypeRegistry.step r).classes, d.id < (qs.foldl TypeRegistry.step r).nextId)
      ∧ ((qs.foldl TypeRegistry.step r).classes.map (fun d => d.id)).Nodup := by
  induction qs generalizing r with
  | nil => exact ⟨hlt, hnd⟩
  | cons q qs ih =>
    obtain ⟨h1, h2⟩ := step_invariant r q hlt hnd
    exact ih (r.step q) h1 h2

/-- The lookup finds nothing exactly when no descriptor of the registry carries the
module and the name. -/
theorem lookup_eq_none_iff (r : TypeRegistry) (m n : String) :
    r.lookup m n = none ↔ ∀ d ∈ r.classes, ¬ (d.owner = m ∧ d.name = n) := by
  unfold TypeRegistry.lookup
  rw [List.find?_eq_none]
  constructor
  · intro h d hd
    simpa using h d hd
  · intro h d hd
    simpa using h d hd

/-- A descriptor the lookup returns is in the registry and carries the module and name. -/
theorem lookup_some_spec (r : TypeRegistry) (m n : String) (d : NativeClassDescriptor)
    (h : r.lookup m n = some d) : d ∈ r.classes ∧ d.owner = m ∧ d.name = n := by
  unfold TypeRegistry.lookup at h
  refine ⟨List.mem_of_find?_eq_some h, ?_⟩
  have := List.find?_some h
  simpa using this

/-- A name carried by some descriptor cannot be registered. -/
theorem register_class_of_mem (r : TypeRegistry) (m n : String) (ms : List MemberBinding)
    (d : NativeClassDescriptor) (hd : d ∈ r.classes) (ho : d.owner = m) (hn : d.name = n) :
    r.register_class m n ms = .error .RegistrationError := by
  cases hl : r.lookup m n with
  | some e => exact register_class_of_lookup_some r m n ms e hl
  | none =>
    exfalso
    exact (lookup_eq_none_iff r m n).1 hl d hd ⟨ho, hn⟩

/-- One request never removes a descriptor and never lowers `nextId`; afterwards the
requested name is carried by a descriptor. -/
theorem step_grows (r : TypeRegistry) (q : Request) :
    (∀ d ∈ r.classes, d ∈ (r.step q).classes)
      ∧ r.nextId ≤ (r.step q).nextId
      ∧ ∃ d ∈ (r.step q).classes, d.owner = q.1 ∧ d.name = q.2.1 := by
  unfold TypeRegistry.step TypeRegistry.register_class
  cases hl : r.lookup q.1 q.2.1 with
  | some e =>
    obtain ⟨he, ho, hn⟩ := lookup_some_spec r q.1 q.2.1 e hl
    exact ⟨fun d hd => hd, Nat.le_refl _, e, he, ho, hn⟩
  | none =>
    refine ⟨?_, Nat.le_succ _, ?_⟩
    · intro d hd
      exact List.mem_append_left _ hd
    · exact ⟨_, List.mem_append_right _ (List.mem_singleton.2 rfl), rfl, rfl⟩

/-- A history of requests never removes a descriptor and never lowers `nextId`. -/
theorem foldl_step_grows (hs : List Request) (r : TypeRegistry) :
    (∀ d ∈ r.classes, d ∈ (hs.foldl TypeRegistry.step r).classes)
      ∧ r.nextId ≤ (hs.foldl TypeRegistry.step r).nextId := by
  induction hs generalizing r with
  | nil => exact ⟨fun d hd => hd, Nat.le_refl _⟩
  | cons q hs ih =>
    obtain ⟨h1, h2, _⟩ := step_grows r q
    obtain ⟨h3, h4⟩ := ih (r.step q)
    exact ⟨fun d hd => h3 d (h1 d hd), Nat.le_trans h2 h4⟩

/-- After a history of requests every requested name is carried by a descriptor. -/
theorem foldl_step_taken (hs : List Request) (r : TypeRegistry) (q : Request) (hq : q ∈ hs) :
    ∃ d ∈ (hs.foldl TypeRegistry.step r).classes, d.owner = q.1 ∧ d.name = q.2.1 := by
  induction hs generalizing r with
  | nil => simp at hq
  | cons p hs ih =>
    rcases List.mem_cons.1 hq with hqp | hqs
    · subst hqp
      obtain ⟨_, _, d, hd, ho, hn⟩ := step_grows r q
      exact ⟨d, (foldl_step_grows hs (r.step q)).1 d hd, ho, hn⟩
    · exact ih (r.step p) hqs

/-- C8: registering a class name again in the same module fails with RegistrationError,
right away and after any further history `hs` of registrations in the VM, as does a
second `Point::register_class(vm, vm->builtins)` and a second `regpt`; a registration
fails exactly when some descriptor of the registry carries the module and name, and
otherwise succeeds with the id `nextId`; two distinct names absent from the module
register with two distinct ids; descriptors are never removed; an id handed out is
below every id handed out later; and after any history `qs` of a VM no two descriptors
share an id, every requested name is taken, and a new registration receives an id no
descriptor holds. -/
theorem register_class_contract (qs hs : List Request) :
    (∀ (r r1 : TypeRegistry) (m n : String) (ms ms2 : List MemberBinding) (id : Nat),
        r.register_class m n ms = .ok (id, r1) →
        r1.register_class m n ms2 = .error .RegistrationError)
      ∧ (∀ (r r1 : TypeRegistry) (id : Nat),
          Point.register_class r "builtins" = .ok (id, r1) →
          Point.register_class r1 "builtins" = .error .RegistrationError)
      ∧ (∀ (vm vm1 : VM), regpt vm = .ok vm1 → regpt vm1 = .error .RegistrationError)
      ∧ (∀ (r : TypeRegistry) (m n1 n2 : String) (ms1 ms2 : List MemberBinding),
          n1 ≠ n2 → r.lookup m n1 = none → r.lookup m n2 = none →
          ∃ id1 r1 id2 r2, r.register_class m n1 ms1 = .ok (id1, r1)
            ∧ r1.register_class m n2 ms2 = .ok (id2, r2) ∧ id1 ≠ id2)
      ∧ ((TypeRegistry.replay qs).classes.map (fun d => d.id)).Nodup
      ∧ (∀ (m n : String) (ms : List MemberBinding) (id : Nat) (r1 : TypeRegistry),
          (TypeRegistry.replay qs).register_class m n ms = .ok (id, r1) →
          (∀ d ∈ (TypeRegistry.replay qs).classes, d.id ≠ id)
          ∧ (r1.classes.map (fun d => d.id)).Nodup)
      ∧ (∀ (r r1 : TypeRegistry) (m n : String) (ms ms2 : List MemberBinding) (id : Nat),
          r.register_class m n ms = .ok (id, r1) →
          (hs.foldl TypeRegistry.step r1).register_class m n ms2
            = .error .RegistrationError)
      ∧ (∀ (r r1 : TypeRegistry) (id : Nat),
          Point.register_class r "builtins" = .ok (id, r1) →
          Point.register_class (hs.foldl TypeRegistry.step r1) "builtins"
            = .error .RegistrationError)
      ∧ (∀ (r : TypeRegistry) (m n : String) (ms : List MemberBinding),
          ((∃ d ∈ r.classes, d.owner = m ∧ d.name = n) →
            r.register_class m n ms = .error .RegistrationError)
          ∧ ((∀ d ∈ r.classes, ¬ (d.owner = m ∧ d.name = n)) →
            r.register_class m n ms
              = .ok (r.nextId,
                  { classes := r.classes
                      ++ [{ name := n, owner := m, members := ms, id := r.nextId }],
                    nextId := r.nextId + 1 })))
      ∧ (∀ (r : TypeRegistry) (m n1 n2 : String) (ms1 ms2 : List MemberBinding),
          n1 ≠ n2 →
          (∀ d ∈ r.classes, ¬ (d.owner = m ∧ d.name = n1)) →
          (∀ d ∈ r.classes, ¬ (d.owner = m ∧ d.name = n2)) →
          ∃ id1 r1 id2 r2, r.register_class m n1 ms1 = .ok (id1, r1)
            ∧ r1.register_class m n2 ms2 = .ok (id2, r2) ∧ id1 ≠ id2)
      ∧ (∀ (r : TypeRegistry) (d : NativeClassDescriptor),
          d ∈ r.classes → d ∈ (hs.foldl TypeRegistry.step r).classes)
      ∧ (∀ (r r1 r2 : TypeRegistry) (m1 n1 m2 n2 : String) (ms1 ms2 : List MemberBinding)
          (id1 id2 : Nat),
          r.register_class m1 n1 ms1 = .ok (id1, r1) →
          (hs.foldl TypeRegistry.step r1).register_class m2 n2 ms2 = .ok (id2, r2) →
          id1 < id2)
      ∧ (∀ (q : Request) (ms : List MemberBinding), q ∈ qs →
          (TypeRegistry.replay qs).register_class q.1 q.2.1 ms
            = .error .RegistrationError) := by
  have again : ∀ (r r1 : TypeRegistry) (m n : String) (ms ms2 : List MemberBinding) (id : Nat),
      r.register_class m n ms = .ok (id, r1) →
      r1.register_class m n ms2 = .error .RegistrationError := by
    intro r r1 m n ms ms2 id h
    obtain ⟨d, hd⟩ := lookup_after_register r r1 m n ms id h
    exact register_class_of_lookup_some r1 m n ms2 d hd
  have later : ∀ (r r1 : TypeRegistry) (m n : String) (ms ms2 : List MemberBinding) (id : Nat),
      r.register_class m n ms = .ok (id, r1) →
      (hs.foldl TypeRegistry.step r1).register_class m n ms2
        = .error .RegistrationError := by
    intro r r1 m n ms ms2 id h
    obtain ⟨d, hd⟩ := lookup_after_register r r1 m n ms id h
    obtain ⟨hmem, ho, hn⟩ := lookup_some_spec r1 m n d hd
    exact register_class_of_mem _ m n ms2 d ((foldl_step_grows hs r1).1 d hmem) ho hn
  have two : ∀ (r : TypeRegistry) (m n1 n2 : String) (ms1 ms2 : List MemberBinding),
      n1 ≠ n2 → r.lookup m n1 = none → r.lookup m n2 = none →
      ∃ id1 r1 id2 r2, r.register_class m n1 ms1 = .ok (id1, r1)
        ∧ r1.register_class m n2 ms2 = .ok (id2, r2) ∧ id1 ≠ id2 := by
    intro r m n1 n2 ms1 ms2 hne h1 h2
    have h3 : TypeRegistry.lookup
        { classes := r.classes ++ [{ name := n1, owner := m, members := ms1, id := r.nextId }],
          nextId := r.nextId + 1 } m n2 = none := by
      unfold TypeRegistry.lookup at h2 ⊢
      rw [List.find?_eq_none] at h2 ⊢
      intro x hx
      simp only [List.mem_append, List.mem_singleton] at hx
      rcases hx with hx | hx
      · exact h2 x hx
      · subst hx
        simp [hne]
    exact ⟨r.nextId, _, r.nextId + 1, _, register_class_of_lookup_none r m n1 ms1 h1,
      register_class_of_lookup_none _ m n2 ms2 h3, by simp⟩
  have inv := foldl_step_invariant qs TypeRegistry.empty
    (by intro d hd; simp [TypeRegistry.empty] at hd) (by simp [TypeRegistry.empty])
  refine ⟨again, ?_, ?_, two, inv.2, ?_, later, ?_, ?_, ?_, ?_, ?_, ?_⟩
  · intro r r1 id h
    exact again r r1 "builtins" "Point" pointMembers pointMembers id h
  · intro vm vm1 h
    unfold regpt at h ⊢
    cases h1 : Point.register_class vm.registry "builtins" with
    | error e => simp [h1, bind, Except.bind] at h
    | ok v =>
      obtain ⟨id, reg⟩ := v
      simp only [h1, bind, Except.bind, pure, Except.pure, Except.ok.injEq] at h
      subst h
      have h2 := again vm.registry reg "builtins" "Point" pointMembers pointMembers id h1
      simp only [Point.register_class] at h2 ⊢
      simp [h2, bind, Except.bind]
  · intro m n ms id r1 h
    obtain ⟨_, hid, hr1⟩ := (register_class_ok_iff _ m n ms id r1).1 h
    constructor
    · intro d hd
      have := inv.1 d hd
      rw [TypeRegistry.replay] at hid
      omega
    · have hst := (step_invariant (TypeRegistry.replay qs) (m, n, ms) inv.1 inv.2).2
      unfold TypeRegistry.step at hst
      rw [h] at hst
      exact hst
  · intro r r1 id h
    exact later r r1 "builtins" "Point" pointMembers pointMembers id h
  · intro r m n ms
    constructor
    · rintro ⟨d, hd, ho, hn⟩
      exact register_class_of_mem r m n ms d hd ho hn
    · intro h
      exact register_class_of_lookup_none r m n ms ((lookup_eq_none_iff r m n).2 h)
  · intro r m n1 n2 ms1 ms2 hne h1 h2
    exact two r m n1 n2 ms1 ms2 hne ((lookup_eq_none_iff r m n1).2 h1)
      ((lookup_eq_none_iff r m n2).2 h2)
  · intro r d hd
    exact (foldl_step_grows hs r).1 d hd
  · intro r r1 r2 m1 n1 m2 n2 ms1 ms2 id1 id2 h1 h2
    obtain ⟨_, hid1, hr1⟩ := (register_class_ok_iff r m1 n1 ms1 id1 r1).1 h1
    obtain ⟨_, hid2, _⟩ := (register_class_ok_iff _ m2 n2 ms2 id2 r2).1 h2
    have hmono := (foldl_step_grows hs r1).2
    rw [hr1] at hmono
    rw [hr1] at hid2
    simp only at hmono
    omega
  · intro q ms hq
    obtain ⟨d, hd, ho, hn⟩ := foldl_step_taken qs TypeRegistry.empty q hq
    exact register_class_of_mem _ q.1 q.2.1 ms d hd ho hn

/-- In a fresh VM, `Point` registered in `builtins`, then `Other`, then `Point` again:
the second registration of `Point` fails. -/
theorem register_class_contract_witness :
    Point.register_class
        (List.foldl TypeRegistry.step
          { classes := [{ name := "Point", owner := "builtins", members := pointMembers,
                          id := 0 }],
            nextId := 1 }
          [("builtins", "Other", [])])
        "builtins"
      = .error .RegistrationError :=
  (register_class_contract [] [("builtins", "Other", [])]).2.2.2.2.2.2.2.1
    TypeRegistry.empty _ 0 rfl

end RegistryProps

/-! ## Console reader -/

section ConsoleProps

variable {α : Type}

/-- On a good stream `std::getline` fails exactly when no input is left. -/
theorem std_getline_fail_iff (cin : IStream) (str : String) (hg : cin.good = true) :
    (std_getline cin str).1.fail = true ↔ cin.buf = [] := by
  unfold std_getline
  rw [if_pos hg]
  cases hb : cin.buf with
  | nil => simp [extractLine, IStream.fail]
  | cons c cs =>
    by_cases hc : c = Char.ofNat 10
    · simp [extractLine, IStream.fail, hc]
    · simp [extractLine, IStream.fail, hc]

/-- A stream that is not good makes `std::getline` fail and keeps the string. -/
theorem std_getline_not_good (cin : IStream) (str : String) (hg : cin.good = false) :
    (std_getline cin str).1.fail = true ∧ (std_getline cin str).2 = str := by
  unfold std_getline
  simp [hg, IStream.fail]

/-- A failed `std::getline` into an empty string leaves it empty. -/
theorem std_getline_fail_output (cin : IStream)
    (hf : (std_getline cin "").1.fail = true) : (std_getline cin "").2 = "" := by
  cases hg : cin.good with
  | false => exact (std_getline_not_good cin "" hg).2
  | true =>
    have hb := (std_getline_fail_iff cin "" hg).1 hf
    unfold std_getline
    rw [if_pos hg, hb]
    rfl

/-- A last line without a newline is returned whole with the flag untouched, although the
read met the end of the input (`eofbit`); only the next read fails and sets the flag. -/
theorem pkpy_platform_getline_unterminated :
    pkpy_platform_getline ⟨['y', 'o'], false, false, false⟩ (some false)
        = { output := "yo", cin := ⟨[], true, false, false⟩, eof := some false }
      ∧ pkpy_platform_getline ⟨[], true, false, false⟩ (some false)
        = { output := "", cin := ⟨[], true, true, false⟩, eof := some true } := by
  decide

/-- C9 as stated fails: with the flag already `true` and the line `hi` waiting, the read
succeeds, the stream stays good, and the flag is still `true` afterwards. -/
theorem pkpy_platform_getline_flag_counterexample :
    (pkpy_platform_getline ⟨['h', 'i', Char.ofNat 10], false, false, false⟩ (some true)).eof
        = some true
      ∧ (pkpy_platform_getline ⟨['h', 'i', Char.ofNat 10], false, false, false⟩
          (some true)).output = "hi"
      ∧ (pkpy_platform_getline ⟨['h', 'i', Char.ofNat 10], false, false, false⟩
          (some true)).cin = ⟨[], false, false, false⟩
      ∧ ¬ ((pkpy_platform_getline ⟨['h', 'i', Char.ofNat 10], false, false, false⟩
              (some true)).eof = some true
            ↔ (pkpy_platform_getline ⟨['h', 'i', Char.ofNat 10], false, false, false⟩
                (some true)).cin.eofbit = true
              ∨ (pkpy_platform_getline ⟨['h', 'i', Char.ofNat 10], false, false, false⟩
                  (some true)).cin.fail = true) := by
  decide

/-- C9, amended: after `pkpy_platform_getline(&eof)` the flag is `true` exactly when it
was `true` before or the read failed, the function never clearing it; on a good stream
the read fails exactly when no input is left; the returned text is the line read, and is
empty when the read failed; and `f_input`, its prompt being `None` or text, pushes exactly
one string, the text read, returns 1 and leaves the interpreter's error channel as it was. -/
theorem pkpy_platform_getline_flag (cin : IStream) (flag : Bool) :
    (pkpy_platform_getline cin (some flag)).eof
        = some (flag || (pkpy_platform_getline cin (some flag)).cin.fail)
      ∧ (cin.good = true →
          ((pkpy_platform_getline cin (some flag)).cin.fail = true ↔ cin.buf = []))
      ∧ (cin.good = true →
          (pkpy_platform_getline cin (some flag)).output = String.mk (extractLine cin.buf).1)
      ∧ ((pkpy_platform_getline cin (some flag)).cin.fail = true →
          (pkpy_platform_getline cin (some flag)).output = "")
      ∧ (∀ (eof0 : Bool) (st : Proc α), st.cin = cin →
          (pkpy_is_none st.vm (-1) = true ∨ ∃ s, st.vm.item (-1) = some (.str s)) →
          (f_input eof0 st).1 = 1
          ∧ (f_input eof0 st).2.vm.stack
              = .str (pkpy_string (pkpy_platform_getline cin (some eof0)).output) :: st.vm.stack
          ∧ (f_input eof0 st).2.vm.error = st.vm.error
          ∧ (f_input eof0 st).2.cin = (pkpy_platform_getline cin (some eof0)).cin) := by
  refine ⟨?_, ?_, ?_, ?_, ?_⟩
  · unfold pkpy_platform_getline
    cases hf : (std_getline cin "").1.fail <;> simp [hf]
  · intro hg
    exact std_getline_fail_iff cin "" hg
  · intro hg
    simp [pkpy_platform_getline, std_getline, hg]
  · intro hf
    exact std_getline_fail_output cin hf
  · intro eof0 st hcin hprompt
    subst hcin
    rcases hprompt with hn | ⟨s, hs⟩
    · simp [f_input, hn, f_input_read, pkpy_push_string]
    · have hn : pkpy_is_none st.vm (-1) = false := by simp [pkpy_is_none, hs]
      simp [f_input, hn, pkpy_to_string, hs, f_input_read, pkpy_push_string]

/-- With the flag `false` and the line `hi` waiting below the prompt `"> "`. -/
theorem pkpy_platform_getline_flag_witness :
    (f_input true
        ({ vm := { stack := [.str "> "], error := false },
           cin := ⟨['h', 'i', Char.ofNat 10], false, false, false⟩,
           cout := [] } : Proc ℚ)).1 = 1 :=
  ((pkpy_platform_getline_flag ⟨['h', 'i', Char.ofNat 10], false, false, false⟩ false).2.2.2.2
    true
    { vm := { stack := [.str "> "], error := false },
      cin := ⟨['h', 'i', Char.ofNat 10], false, false, false⟩,
      cout := [] }
    rfl (Or.inr ⟨"> ", rfl⟩)).1

end ConsoleProps

end Pocketpy
